import Mathlib

/-!
# Verification of the `rosbag_v2` storage plugin (rosbag2_bag_v2)

Shallow embedding of the two source files
`storage/rosbag_v2_storage.cpp` and `converter/rosbag_v2_deserializer.cpp`
of the `rosbag2_bag_v2_plugins` package, together with models of the
external collaborators they use (the legacy `rosbag::Bag`/`rosbag::View`
reading interface, the `rosbag2_storage` metadata structs, and the parts of
this package that live in headers or files outside the snapshot:
`rosbag_output_stream`, `convert_rosbag_message`, `vector_has_already_element`).

Byte buffers are `List Nat` (each element one byte); type names travel as
their byte sequences, since the wire format terminates them with a 0 byte.
Timestamps are `Nat` nanosecond counts (`ros::Time::toNSec`).
-/

/-- A ROS 1 to ROS 2 type-name mapping: `get_1to2_mapping` returns the ROS 2
type name for a ROS 1 type name when the hand-maintained table has an entry.
Modelled from the spec: `convert_rosbag_message.hpp` is not part of the
snapshot; the Type Mapping Table is a fixed lookup from legacy type name to
host type name (`lookup(legacy_type_name) -> optional(host_type_name, fn)`),
kept abstract here as a parameter of every operation that consults it. -/
abbrev Ros1To2Mapping : Type := List Nat → Option (List Nat)

/-- A connection of the legacy bag: a (topic, legacy datatype) pair, as
returned by `rosbag::View::getConnections()`. -/
structure Connection where
  topic : String
  datatype : List Nat
deriving DecidableEq, Repr

/-- One record (message instance) of the legacy bag: its topic, the datatype
of its connection, its timestamp in nanoseconds, and its raw serialized
payload bytes. -/
structure Record where
  topic : String
  datatype : List Nat
  time : Nat
  payload : List Nat
deriving DecidableEq, Repr

/-- Modelled from the spec: the legacy log consumed through the narrow
interface of §6 — a list of connections, the time-ordered sequence of
records of the full (unfiltered) view, and the file attributes used by the
metadata functions. -/
structure Bag where
  connections : List Connection
  records : List Record
  fileSize : Nat
  fileName : String
deriving DecidableEq, Repr

/-- Modelled from the spec: `rosbag::View::getBeginTime().toNSec()` of the
full view — the timestamp of the first record of the time-ordered view
(0 for an empty view). -/
def Bag.beginTime (bag : Bag) : Nat :=
  (bag.records.head?.map Record.time).getD 0

/-- Modelled from the spec: `rosbag::View::getEndTime().toNSec()` of the
full view — the timestamp of the last record of the time-ordered view
(0 for an empty view). -/
def Bag.endTime (bag : Bag) : Nat :=
  (bag.records.getLast?.map Record.time).getD 0

/-- Modelled from the spec: `RosbagOutputStream` (`rosbag_output_stream.cpp`
is not part of the snapshot). The stream is seeded with the record's
datatype followed by a null terminator, and `MessageInstance::write`
appends the raw legacy payload: the Tagged Record Buffer is
`[type_name_bytes][0x00][legacy_payload_bytes]`. -/
def taggedRecordBuffer (datatype : List Nat) (payload : List Nat) : List Nat :=
  datatype ++ 0 :: payload

/-- The serialized bag message produced by `read_next()`
(`rosbag2_storage::SerializedBagMessage`). -/
structure SerializedBagMessage where
  topic_name : String
  time_stamp : Nat
  serialized_data : List Nat
deriving DecidableEq, Repr

/-- The body of `RosbagV2Storage::read_next()` that builds one serialized
message from the message instance under the iterator: topic from
`getTopic()`, timestamp from `getTime().toNSec()`, and the tagged buffer
written through `RosbagOutputStream(getDataType())` / `write`. -/
def recordToMessage (r : Record) : SerializedBagMessage :=
  { topic_name := r.topic
    time_stamp := r.time
    serialized_data := taggedRecordBuffer r.datatype r.payload }

/-- The loop of `RosbagV2Storage::open` that collects
`topics_valid_in_ros2`: for each connection, if `get_1to2_mapping` has an
entry for its datatype and the topic is not yet in the vector
(`vector_has_already_element`, modelled as list membership), append the
topic; unmapped connections are only logged and skipped. -/
def topics_valid_in_ros2 (m : Ros1To2Mapping) (conns : List Connection) : List String :=
  conns.foldl
    (fun acc c =>
      match m c.datatype with
      | some _ => if c.topic ∈ acc then acc else acc ++ [c.topic]
      | none => acc)
    []

/-- The filtered view built at the end of `RosbagV2Storage::open`:
`rosbag::View(*ros_v2_bag_, rosbag::TopicQuery(topics_valid_in_ros2))`.
The `TopicQuery` restriction keeps exactly the records whose topic is in
the query list, in the view's time order. -/
def openView (m : Ros1To2Mapping) (bag : Bag) : List Record :=
  bag.records.filter (fun r => decide (r.topic ∈ topics_valid_in_ros2 m bag.connections))

/-- The mutable state of a `RosbagV2Storage` instance: the owned bag handle
(`none` before a successful `open`), the filtered view
`bag_view_of_replayable_messages_` (`none` models the null pointer set at
construction), and the iterator `bag_iterator_` as an index into the view. -/
structure RosbagV2Storage where
  bag? : Option Bag
  view? : Option (List Record)
  cursor : Nat
deriving DecidableEq, Repr

/-- The constructor `RosbagV2Storage()`: a fresh unopened bag object and
`bag_view_of_replayable_messages_(nullptr)`. -/
def RosbagV2Storage.construct : RosbagV2Storage :=
  { bag? := none, view? := none, cursor := 0 }

/-- The IO flag of `rosbag2_storage::storage_interfaces` as used by this
plugin: `open` compares the flag against `READ_WRITE`. -/
inductive IOFlag where
  | readOnly
  | readWrite
deriving DecidableEq, Repr

/-- The error kinds this development distinguishes. `unsupportedModeError`
is the `std::runtime_error` thrown for write access, `openError` the
failure of `rosbag::Bag::open` on a missing or unreadable file,
`unmappedTypeError` the failure of the transcoder on a type without a
mapping; `endOfLogError` is the failure the specification prescribes for
reading past the end. -/
inductive StorageError where
  | unsupportedModeError
  | openError
  | endOfLogError
  | unmappedTypeError
deriving DecidableEq, Repr

deriving instance DecidableEq for Except

/-- `RosbagV2Storage::open(uri, flag)`: throws for `READ_WRITE` before any
file access, otherwise opens the bag (`resolve` models which uris name a
readable legacy log), collects the mapped topics and installs the filtered
view with the iterator at its beginning. -/
def RosbagV2Storage.openStorage (m : Ros1To2Mapping) (resolve : String → Option Bag)
    (s : RosbagV2Storage) (uri : String) (flag : IOFlag) :
    Except StorageError RosbagV2Storage :=
  if flag = IOFlag.readWrite then
    Except.error StorageError.unsupportedModeError
  else
    match resolve uri with
    | none => Except.error StorageError.openError
    | some bag =>
        Except.ok { bag? := some bag, view? := some (openView m bag), cursor := 0 }

/-- `RosbagV2Storage::has_next()`: `bag_iterator_ !=
bag_view_of_replayable_messages_->end()`. The result is `none` when the
view pointer is still null (the dereference has no defined result). -/
def RosbagV2Storage.has_next? (s : RosbagV2Storage) : Option Bool :=
  s.view?.map (fun v => decide (s.cursor ≠ v.length))

/-- The possible outcomes of one `read_next()` call: a message together
with the advanced storage state; the `EndOfLogError` failure the
specification prescribes (no code path below produces it); or the
dereference of the end iterator, which has no defined result. -/
inductive ReadResult where
  | ok (msg : SerializedBagMessage) (s : RosbagV2Storage)
  | endOfLogError
  | undefinedEndDereference
deriving DecidableEq, Repr

/-- `RosbagV2Storage::read_next()`: dereferences `bag_iterator_`, builds the
serialized message from the message instance, and increments the iterator.
There is no end check: at the end of the view the dereference has no
defined result. `none` models the null view pointer before `open`. -/
def RosbagV2Storage.read_next? (s : RosbagV2Storage) : Option ReadResult :=
  match s.view? with
  | none => none
  | some v =>
      if h : s.cursor < v.length then
        some (ReadResult.ok (recordToMessage (v.get ⟨s.cursor, h⟩))
          { s with cursor := s.cursor + 1 })
      else
        some ReadResult.undefinedEndDereference

/-- Iterated `read_next()`: read `n` messages, stopping early only if a call
does not return a message. -/
def readMany : Nat → RosbagV2Storage → List SerializedBagMessage × RosbagV2Storage
  | 0, s => ([], s)
  | n + 1, s =>
      match s.read_next? with
      | some (ReadResult.ok msg s') =>
          let p := readMany n s'
          (msg :: p.1, p.2)
      | _ => ([], s)

/-! ## The deserializer (`rosbag_v2_deserializer.cpp`) -/

/-- `std::string(reinterpret_cast<char *>(buffer))` in
`RosbagV2Deserializer::deserialize`: the bytes of the buffer up to, and
not including, the first 0 byte — the embedded ROS 1 datatype. -/
def parse_ros1_data_type (buf : List Nat) : List Nat :=
  buf.takeWhile (fun b => decide (b ≠ 0))

/-- The `ros::serialization::IStream` built in
`RosbagV2Deserializer::deserialize`: it starts at
`buffer + data_type_zero_terminated_length` with exactly
`buffer_length - data_type_zero_terminated_length` bytes, where
`data_type_zero_terminated_length` is the parsed type name's length plus
one for the terminator. -/
def parse_payload_stream (buf : List Nat) : List Nat :=
  buf.drop ((parse_ros1_data_type buf).length + 1)

/-- The host's generic introspectable message
(`rosbag2_cpp::rosbag2_introspection_message_t`): the transcoded body
(kept abstract in `F`), the timestamp and the topic name the deserializer
sets itself. -/
structure IntrospectionMessage (F : Type) where
  message : F
  time_stamp : Nat
  topic_name : String
deriving DecidableEq, Repr

/-- Modelled from the spec: `convert_1_to_2` of `convert_rosbag_message.hpp`
(not part of the snapshot) — the Record Transcoder looks the legacy type
name up in the Type Mapping Table, fails with `UnmappedTypeError` when
there is no entry, and otherwise populates the output from the payload
stream through the mapped transcoding function `conv` (which never touches
timestamp or topic). -/
def convert_1_to_2 {F : Type} (m : Ros1To2Mapping) (conv : List Nat → List Nat → F)
    (ros1_data_type : List Nat) (stream : List Nat) : Except StorageError F :=
  match m ros1_data_type with
  | some _ => Except.ok (conv ros1_data_type stream)
  | none => Except.error StorageError.unmappedTypeError

/-- `RosbagV2Deserializer::deserialize`: parse the null-terminated type name
from the front of the serialized data, hand the remaining bytes to
`convert_1_to_2`, then set the message's timestamp and topic name from the
serialized bag message (the caller-supplied type support is ignored). -/
def deserialize {F : Type} (m : Ros1To2Mapping) (conv : List Nat → List Nat → F)
    (sm : SerializedBagMessage) : Except StorageError (IntrospectionMessage F) :=
  let ros1_data_type := parse_ros1_data_type sm.serialized_data
  (convert_1_to_2 m conv ros1_data_type (parse_payload_stream sm.serialized_data)).map
    (fun f => { message := f, time_stamp := sm.time_stamp, topic_name := sm.topic_name })

/-! ## Topic listing and metadata (`rosbag_v2_storage.cpp`) -/

/-- `rosbag2_storage::TopicMetadata`, an external collaborator struct whose
`operator==` compares name, type and serialization format field-wise (this
equality is what `std::find` inside `vector_has_already_element` uses). -/
structure TopicMetadata where
  name : String
  type : List Nat
  serialization_format : String
deriving DecidableEq, Repr

/-- `RosbagV2Storage::get_all_topics_and_types_including_ros1_topics()`:
one `TopicMetadata` per connection — topic, legacy datatype, serialization
format `"rosbag_v2"` — appended unless an equal element is already present
(`vector_has_already_element`, modelled as list membership under the
struct's field-wise equality). -/
def get_all_topics_and_types_including_ros1_topics (bag : Bag) : List TopicMetadata :=
  bag.connections.foldl
    (fun acc c =>
      let tm : TopicMetadata :=
        { name := c.topic, type := c.datatype, serialization_format := "rosbag_v2" }
      if tm ∈ acc then acc else acc ++ [tm])
    []

/-- `RosbagV2Storage::get_all_topics_and_types()`: keep the entries of
`get_all_topics_and_types_including_ros1_topics` whose legacy type has a
ROS 2 mapping, replacing the type field with the mapped ROS 2 type name. -/
def get_all_topics_and_types (m : Ros1To2Mapping) (bag : Bag) : List TopicMetadata :=
  (get_all_topics_and_types_including_ros1_topics bag).foldl
    (fun acc tm =>
      match m tm.type with
      | some ros2_type_name => acc ++ [{ tm with type := ros2_type_name }]
      | none => acc)
    []

/-- `rosbag2_storage::TopicInformation`: a topic's metadata together with
its message count. -/
structure TopicInformation where
  topic_metadata : TopicMetadata
  message_count : Nat
deriving DecidableEq, Repr

/-- `RosbagV2Storage::get_topic_information()`: for each entry of
`get_all_topics_and_types()`, the size of a fresh view restricted to that
topic (`rosbag::View` with a one-topic `TopicQuery`). -/
def get_topic_information (m : Ros1To2Mapping) (bag : Bag) : List TopicInformation :=
  (get_all_topics_and_types m bag).map
    (fun tm =>
      { topic_metadata := tm
        message_count :=
          (bag.records.filter (fun r => decide (r.topic = tm.name))).length })

/-- `rosbag2_storage::BagMetadata` as filled in by this plugin. The
duration is the difference of the full view's end and begin times. -/
structure BagMetadata where
  version : Nat
  storage_identifier : String
  bag_size : Nat
  relative_file_paths : List String
  duration : Int
  starting_time : Nat
  message_count : Nat
  topics_with_message_count : List TopicInformation
deriving DecidableEq, Repr

/-- `RosbagV2Storage::get_metadata()`: recomputed on every call from a fresh
unfiltered view — file size, file name, duration and starting time of the
full view, total record count of the full view, and the per-topic
breakdown from `get_topic_information()`. -/
def get_metadata (m : Ros1To2Mapping) (bag : Bag) : BagMetadata :=
  { version := 2
    storage_identifier := "rosbag_v2"
    bag_size := bag.fileSize
    relative_file_paths := [bag.fileName]
    duration := (bag.endTime : Int) - (bag.beginTime : Int)
    starting_time := bag.beginTime
    message_count := bag.records.length
    topics_with_message_count := get_topic_information m bag }

/-- A `get_metadata()` call on a storage instance: it computes the snapshot
from the owned bag (`none` when `open` never succeeded) and does not touch
any member of the instance. -/
def RosbagV2Storage.get_metadata_call (m : Ros1To2Mapping) (s : RosbagV2Storage) :
    Option BagMetadata × RosbagV2Storage :=
  (s.bag?.map (get_metadata m), s)

/-- The generic append-if-absent fold that `vector_has_already_element`
induces on a whole list: deduplication keeping first occurrences. -/
def dedupKeepFirst {α : Type} [DecidableEq α] (l : List α) : List α :=
  l.foldl (fun acc x => if x ∈ acc then acc else acc ++ [x]) []

/-- The metadata entry `get_all_topics_and_types_including_ros1_topics`
builds for one connection. -/
def connectionMetadata (c : Connection) : TopicMetadata :=
  { name := c.topic, type := c.datatype, serialization_format := "rosbag_v2" }

/-- Well-formedness of a legacy bag, as the legacy format intends it: every
record lies on one of the enumerated connections, and a topic carries a
single datatype across all its connections. -/
def Bag.wellFormed (bag : Bag) : Bool :=
  bag.records.all
    (fun r => decide ((⟨r.topic, r.datatype⟩ : Connection) ∈ bag.connections)) &&
  bag.connections.all
    (fun c => bag.connections.all
      (fun c' => decide (c.topic = c'.topic → c.datatype = c'.datatype)))

/-! ## Concrete test fixtures

Small closed instances used to evaluate the definitions: a mapping that
knows the single legacy type `[65]`, a mapping that knows `[65]` and `[66]`,
a well-formed bag, and a bag whose topic `/t` carries two different legacy
types (only one of them mapped). -/

/-- A mapping table with exactly one entry: legacy type `[65]` maps to host
type `[90]`. -/
def mapA : Ros1To2Mapping := fun d => if d = [65] then some [90] else none

/-- A mapping table with two entries: `[65] ↦ [75]` and `[66] ↦ [76]`. -/
def mapAB : Ros1To2Mapping :=
  fun d => if d = [65] then some [75] else if d = [66] then some [76] else none

/-- A transcoding function that records exactly what it was handed. -/
def convPair : List Nat → List Nat → List Nat × List Nat :=
  fun name payload => (name, payload)

/-- A well-formed bag: topic `/c` of mapped type `[65]` with two records,
topic `/u` of unmapped type `[67]` with one record in between. -/
def bagGood : Bag :=
  { connections := [⟨"/c", [65]⟩, ⟨"/u", [67]⟩]
    records :=
      [⟨"/c", [65], 100, [1, 2]⟩, ⟨"/u", [67], 150, [9]⟩, ⟨"/c", [65], 200, [3]⟩]
    fileSize := 1024
    fileName := "good.bag" }

/-- The storage state `open` produces on `bagGood` with `mapA`. -/
def sGood : RosbagV2Storage :=
  { bag? := some bagGood, view? := some (openView mapA bagGood), cursor := 0 }

/-- `sGood` after both replayable records have been read: the iterator is at
the end of the filtered view. -/
def sExhausted : RosbagV2Storage :=
  { bag? := some bagGood, view? := some (openView mapA bagGood), cursor := 2 }

/-- A bag whose topic `/t` carries two connections of different legacy
types — `[65]` (mapped by `mapA`) and `[66]` (unmapped) — and whose only
records lie on the unmapped connections. -/
def bagMixed : Bag :=
  { connections := [⟨"/t", [65]⟩, ⟨"/t", [66]⟩, ⟨"/u", [67]⟩]
    records := [⟨"/t", [66], 100, [1, 2]⟩, ⟨"/u", [67], 200, [3]⟩]
    fileSize := 10
    fileName := "mixed.bag" }

/-- The storage state `open` produces on `bagMixed` with `mapA`. -/
def sMixed : RosbagV2Storage :=
  { bag? := some bagMixed, view? := some (openView mapA bagMixed), cursor := 0 }

/-- A connection list whose first occurrence of topic `/t` has the unmapped
type `[66]` and whose second occurrence has the mapped type `[65]`. -/
def conns8 : List Connection := [⟨"/t", [66]⟩, ⟨"/t", [65]⟩]

/-- A bag with two connections for topic `/t`, both of whose legacy types
`mapAB` maps (to different host types). -/
def bagTwoTypes : Bag :=
  { connections := [⟨"/t", [65]⟩, ⟨"/t", [66]⟩]
    records := []
    fileSize := 5
    fileName := "two.bag" }

/-! ## Helper lemmas -/

theorem parse_ros1_data_type_tagged (name payload : List Nat) (hnul : ¬ 0 ∈ name) :
    parse_ros1_data_type (taggedRecordBuffer name payload) = name := by
  unfold parse_ros1_data_type taggedRecordBuffer
  induction name with
  | nil => simp
  | cons b bs ih =>
      have hb : b ≠ 0 := fun h => hnul (by simp [h])
      have hbs : ¬ 0 ∈ bs := fun h => hnul (by simp [h])
      simpa [List.takeWhile, hb] using ih hbs

theorem parse_payload_stream_tagged (name payload : List Nat) (hnul : ¬ 0 ∈ name) :
    parse_payload_stream (taggedRecordBuffer name payload) = payload := by
  unfold parse_payload_stream
  rw [parse_ros1_data_type_tagged name payload hnul]
  unfold taggedRecordBuffer
  have : name ++ 0 :: payload = (name ++ [0]) ++ payload := by simp
  rw [this]
  have hlen : name.length + 1 = (name ++ [0]).length := by simp
  rw [hlen, List.drop_left]

theorem tagged_length (name payload : List Nat) :
    (taggedRecordBuffer name payload).length - (name.length + 1) = payload.length := by
  unfold taggedRecordBuffer
  simp
  omega

theorem read_next_eq_ok (s : RosbagV2Storage) (v : List Record)
    (h : s.view? = some v) (hc : s.cursor < v.length) :
    s.read_next? = some (ReadResult.ok (recordToMessage (v.get ⟨s.cursor, hc⟩))
      { s with cursor := s.cursor + 1 }) := by
  unfold RosbagV2Storage.read_next?
  rw [h]
  simp [hc]

theorem read_next_eq_undefined (s : RosbagV2Storage) (v : List Record)
    (h : s.view? = some v) (hc : ¬ s.cursor < v.length) :
    s.read_next? = some ReadResult.undefinedEndDereference := by
  unfold RosbagV2Storage.read_next?
  rw [h]
  simp [hc]

theorem has_next_eq (s : RosbagV2Storage) (v : List Record) (h : s.view? = some v) :
    s.has_next? = some (decide (s.cursor ≠ v.length)) := by
  unfold RosbagV2Storage.has_next?
  rw [h]
  rfl

theorem openStorage_ok (m : Ros1To2Mapping) (resolve : String → Option Bag)
    (s : RosbagV2Storage) (uri : String) (flag : IOFlag) (s' : RosbagV2Storage)
    (h : RosbagV2Storage.openStorage m resolve s uri flag = Except.ok s') :
    ∃ bag, resolve uri = some bag ∧
      s' = { bag? := some bag, view? := some (openView m bag), cursor := 0 } := by
  unfold RosbagV2Storage.openStorage at h
  by_cases hf : flag = IOFlag.readWrite
  · simp [hf] at h
  · simp only [hf, if_false] at h
    cases hres : resolve uri with
    | none => rw [hres] at h; exact absurd h (by simp)
    | some bag =>
        rw [hres] at h
        simp at h
        exact ⟨bag, rfl, h.symm⟩

theorem mem_topics_valid_foldl (m : Ros1To2Mapping) (conns : List Connection) :
    ∀ (acc : List String) (t : String),
      (t ∈ conns.foldl
        (fun acc c =>
          match m c.datatype with
          | some _ => if c.topic ∈ acc then acc else acc ++ [c.topic]
          | none => acc) acc)
      ↔ t ∈ acc ∨ ∃ c, c ∈ conns ∧ c.topic = t ∧ (m c.datatype).isSome := by
  induction conns with
  | nil => intro acc t; simp
  | cons c cs ih =>
      intro acc t
      simp only [List.foldl_cons]
      rw [ih]
      cases hm : m c.datatype with
      | none =>
          simp only [hm]
          constructor
          · rintro (h | ⟨c', hc', ht, hs⟩)
            · exact Or.inl h
            · exact Or.inr ⟨c', List.mem_cons_of_mem _ hc', ht, hs⟩
          · rintro (h | ⟨c', hc', ht, hs⟩)
            · exact Or.inl h
            · rcases List.mem_cons.1 hc' with rfl | hc''
              · rw [hm] at hs; simp at hs
              · exact Or.inr ⟨c', hc'', ht, hs⟩
      | some r2 =>
          simp only [hm]
          by_cases hmem : c.topic ∈ acc
          · simp only [hmem, if_true]
            constructor
            · rintro (h | ⟨c', hc', ht, hs⟩)
              · exact Or.inl h
              · exact Or.inr ⟨c', List.mem_cons_of_mem _ hc', ht, hs⟩
            · rintro (h | ⟨c', hc', ht, hs⟩)
              · exact Or.inl h
              · rcases List.mem_cons.1 hc' with rfl | hc''
                · exact Or.inl (ht ▸ hmem)
                · exact Or.inr ⟨c', hc'', ht, hs⟩
          · simp only [hmem, if_false]
            constructor
            · rintro (h | ⟨c', hc', ht, hs⟩)
              · rcases List.mem_append.1 h with h' | h'
                · exact Or.inl h'
                · refine Or.inr ⟨c, List.mem_cons_self _ _, ?_, by rw [hm]; rfl⟩
                  have ht : t = c.topic := by simpa using h'
                  exact ht.symm
              · exact Or.inr ⟨c', List.mem_cons_of_mem _ hc', ht, hs⟩
            · rintro (h | ⟨c', hc', ht, hs⟩)
              · exact Or.inl (List.mem_append.2 (Or.inl h))
              · rcases List.mem_cons.1 hc' with rfl | hc''
                · exact Or.inl (List.mem_append.2 (Or.inr (by simp [ht])))
                · exact Or.inr ⟨c', hc'', ht, hs⟩

theorem mem_topics_valid (m : Ros1To2Mapping) (conns : List Connection) (t : String) :
    t ∈ topics_valid_in_ros2 m conns ↔
      ∃ c, c ∈ conns ∧ c.topic = t ∧ (m c.datatype).isSome := by
  unfold topics_valid_in_ros2
  rw [mem_topics_valid_foldl]
  simp

theorem nodup_topics_valid_foldl (m : Ros1To2Mapping) (conns : List Connection) :
    ∀ (acc : List String), acc.Nodup →
      (conns.foldl
        (fun acc c =>
          match m c.datatype with
          | some _ => if c.topic ∈ acc then acc else acc ++ [c.topic]
          | none => acc) acc).Nodup := by
  induction conns with
  | nil => intro acc h; simpa using h
  | cons c cs ih =>
      intro acc h
      simp only [List.foldl_cons]
      apply ih
      cases hm : m c.datatype with
      | none => simpa [hm] using h
      | some r2 =>
          simp only [hm]
          by_cases hmem : c.topic ∈ acc
          · simpa [hmem] using h
          · simp only [hmem, if_false]
            exact List.Nodup.append h (List.nodup_singleton _)
              (by simpa [List.disjoint_singleton] using hmem)

theorem nodup_topics_valid (m : Ros1To2Mapping) (conns : List Connection) :
    (topics_valid_in_ros2 m conns).Nodup :=
  nodup_topics_valid_foldl m conns [] List.nodup_nil

theorem mem_dedupKeepFirst_foldl {α : Type} [DecidableEq α] (l : List α) :
    ∀ (acc : List α) (x : α),
      (x ∈ l.foldl (fun acc x => if x ∈ acc then acc else acc ++ [x]) acc)
        ↔ x ∈ acc ∨ x ∈ l := by
  induction l with
  | nil => intro acc x; simp
  | cons a as ih =>
      intro acc x
      simp only [List.foldl_cons]
      rw [ih]
      by_cases hmem : a ∈ acc
      · simp only [hmem, if_true, List.mem_cons]
        constructor
        · rintro (h | h)
          · exact Or.inl h
          · exact Or.inr (Or.inr h)
        · rintro (h | rfl | h)
          · exact Or.inl h
          · exact Or.inl hmem
          · exact Or.inr h
      · simp only [hmem, if_false, List.mem_append, List.mem_singleton, List.mem_cons]
        tauto

theorem mem_dedupKeepFirst {α : Type} [DecidableEq α] (l : List α) (x : α) :
    x ∈ dedupKeepFirst l ↔ x ∈ l := by
  unfold dedupKeepFirst
  rw [mem_dedupKeepFirst_foldl]
  simp

theorem nodup_dedupKeepFirst_foldl {α : Type} [DecidableEq α] (l : List α) :
    ∀ (acc : List α), acc.Nodup →
      (l.foldl (fun acc x => if x ∈ acc then acc else acc ++ [x]) acc).Nodup := by
  induction l with
  | nil => intro acc h; simpa using h
  | cons a as ih =>
      intro acc h
      simp only [List.foldl_cons]
      apply ih
      by_cases hmem : a ∈ acc
      · simpa [hmem] using h
      · simp only [hmem, if_false]
        exact List.Nodup.append h (List.nodup_singleton _)
          (by simpa [List.disjoint_singleton] using hmem)

theorem nodup_dedupKeepFirst {α : Type} [DecidableEq α] (l : List α) :
    (dedupKeepFirst l).Nodup :=
  nodup_dedupKeepFirst_foldl l [] List.nodup_nil

theorem including_ros1_eq_dedup (bag : Bag) :
    get_all_topics_and_types_including_ros1_topics bag
      = dedupKeepFirst (bag.connections.map connectionMetadata) := by
  unfold get_all_topics_and_types_including_ros1_topics dedupKeepFirst
  rw [List.foldl_map]
  rfl

theorem get_all_foldl_eq_filterMap (m : Ros1To2Mapping) :
    ∀ (l : List TopicMetadata) (acc : List TopicMetadata),
      (l.foldl
        (fun acc tm =>
          match m tm.type with
          | some ros2_type_name => acc ++ [{ tm with type := ros2_type_name }]
          | none => acc) acc)
      = acc ++ l.filterMap (fun tm => (m tm.type).map (fun h => { tm with type := h })) := by
  intro l
  induction l with
  | nil => intro acc; simp
  | cons tm tms ih =>
      intro acc
      simp only [List.foldl_cons]
      cases hm : m tm.type with
      | none => simp only [hm]; rw [ih]; simp [List.filterMap_cons, hm]
      | some h => simp only [hm]; rw [ih]; simp [List.filterMap_cons, hm]

theorem wellFormed_record_connection (bag : Bag) (hwf : bag.wellFormed = true)
    (r : Record) (hr : r ∈ bag.records) :
    (⟨r.topic, r.datatype⟩ : Connection) ∈ bag.connections := by
  unfold Bag.wellFormed at hwf
  rw [Bool.and_eq_true] at hwf
  have h := List.all_eq_true.1 hwf.1 r hr
  exact of_decide_eq_true h

theorem wellFormed_topic_unique (bag : Bag) (hwf : bag.wellFormed = true)
    (c c' : Connection) (hc : c ∈ bag.connections) (hc' : c' ∈ bag.connections)
    (ht : c.topic = c'.topic) : c.datatype = c'.datatype := by
  unfold Bag.wellFormed at hwf
  rw [Bool.and_eq_true] at hwf
  have h := List.all_eq_true.1 (List.all_eq_true.1 hwf.2 c hc) c' hc'
  exact of_decide_eq_true h ht

theorem wellFormed_mem_topics_valid (m : Ros1To2Mapping) (bag : Bag)
    (hwf : bag.wellFormed = true) (r : Record) (hr : r ∈ bag.records) :
    (r.topic ∈ topics_valid_in_ros2 m bag.connections) ↔ (m r.datatype).isSome := by
  constructor
  · intro h
    rcases (mem_topics_valid m bag.connections r.topic).1 h with ⟨c, hc, htopic, hsome⟩
    have hconn := wellFormed_record_connection bag hwf r hr
    have hdt : c.datatype = r.datatype :=
      wellFormed_topic_unique bag hwf c ⟨r.topic, r.datatype⟩ hc hconn htopic
    rwa [hdt] at hsome
  · intro h
    exact (mem_topics_valid m bag.connections r.topic).2
      ⟨⟨r.topic, r.datatype⟩, wellFormed_record_connection bag hwf r hr, rfl, h⟩

theorem openView_eq_mapped (m : Ros1To2Mapping) (bag : Bag)
    (hwf : bag.wellFormed = true) :
    openView m bag = bag.records.filter (fun r => (m r.datatype).isSome) := by
  unfold openView
  apply List.filter_congr
  intro r hr
  have h := wellFormed_mem_topics_valid m bag hwf r hr
  cases hs : (m r.datatype).isSome with
  | true => exact decide_eq_true (h.mpr hs)
  | false =>
      refine decide_eq_false (fun hmem => ?_)
      rw [h.mp hmem] at hs
      exact Bool.noConfusion hs

theorem readMany_drop (v : List Record) :
    ∀ (n : Nat) (s : RosbagV2Storage), s.view? = some v →
      s.cursor + n = v.length →
      readMany n s = ((v.drop s.cursor).map recordToMessage, { s with cursor := v.length }) := by
  intro n
  induction n with
  | zero =>
      intro s hv hc
      have hcur : s.cursor = v.length := by omega
      rw [readMany]
      rw [List.drop_eq_nil_of_le (le_of_eq hcur.symm)]
      cases s with
      | mk b? v? cur =>
          simp only at hcur
          simp [hcur]
  | succ n ih =>
      intro s hv hc
      have hlt : s.cursor < v.length := by omega
      rw [readMany]
      rw [read_next_eq_ok s v hv hlt]
      have ihres := ih { s with cursor := s.cursor + 1 } (by simpa using hv) (by simp; omega)
      simp only [ihres, List.drop_eq_getElem_cons hlt, List.map_cons, List.get_eq_getElem]

theorem get_all_eq_filterMap (m : Ros1To2Mapping) (bag : Bag) :
    get_all_topics_and_types m bag
      = (dedupKeepFirst (bag.connections.map connectionMetadata)).filterMap
          (fun tm => (m tm.type).map (fun h => { tm with type := h })) := by
  unfold get_all_topics_and_types
  rw [get_all_foldl_eq_filterMap, including_ros1_eq_dedup]
  simp



/-! ## Claims -/

/-- C1: every serialized record produced by `read_next()` has the layout
`[type_name_bytes][0x00][legacy_payload_bytes]`; `deserialize()` recovers
the type name as the bytes up to the first 0 byte and treats exactly the
remaining `total_buffer_length - (type_name_length + 1)` bytes after the
terminator as the payload handed to the transcoding function. -/
theorem C1_tagged_buffer_layout {F : Type} (m : Ros1To2Mapping)
    (conv : List Nat → List Nat → F)
    (s : RosbagV2Storage) (v : List Record) (r : Record)
    (msg : SerializedBagMessage) (s' : RosbagV2Storage)
    (hv : s.view? = some v)
    (hread : s.read_next? = some (ReadResult.ok msg s'))
    (hr : v[s.cursor]? = some r)
    (hnul : ¬ 0 ∈ r.datatype) :
    parse_ros1_data_type msg.serialized_data = r.datatype ∧
    parse_payload_stream msg.serialized_data = r.payload ∧
    msg.serialized_data.length - ((parse_ros1_data_type msg.serialized_data).length + 1)
      = r.payload.length ∧
    deserialize m conv msg
      = (convert_1_to_2 m conv r.datatype r.payload).map
          (fun f =>
            { message := f, time_stamp := msg.time_stamp, topic_name := msg.topic_name }) := by
  have hlt : s.cursor < v.length := by
    by_contra hge
    rw [read_next_eq_undefined s v hv hge] at hread
    exact ReadResult.noConfusion (Option.some.inj hread)
  rw [read_next_eq_ok s v hv hlt] at hread
  have hinj := Option.some.inj hread
  injection hinj with hmsg hs
  have hvr : v.get ⟨s.cursor, hlt⟩ = r := by
    have := List.getElem?_eq_getElem hlt
    rw [hr] at this
    exact (Option.some.inj this).symm
  rw [hvr] at hmsg
  subst hmsg
  have hdata : (recordToMessage r).serialized_data = taggedRecordBuffer r.datatype r.payload := rfl
  have h1 : parse_ros1_data_type (recordToMessage r).serialized_data = r.datatype := by
    rw [hdata]; exact parse_ros1_data_type_tagged r.datatype r.payload hnul
  have h2 : parse_payload_stream (recordToMessage r).serialized_data = r.payload := by
    rw [hdata]; exact parse_payload_stream_tagged r.datatype r.payload hnul
  refine ⟨h1, h2, ?_, ?_⟩
  · rw [h1, hdata]; exact tagged_length r.datatype r.payload
  · unfold deserialize
    rw [h1, h2]

/-- C1 witness: the layout facts at the first record of the opened
`bagGood` storage. -/
theorem C1_witness :
    parse_ros1_data_type (recordToMessage (Record.mk "/c" [65] 100 [1, 2])).serialized_data
      = [65] ∧
    parse_payload_stream (recordToMessage (Record.mk "/c" [65] 100 [1, 2])).serialized_data
      = [1, 2] ∧
    (recordToMessage (Record.mk "/c" [65] 100 [1, 2])).serialized_data.length -
      ((parse_ros1_data_type
        (recordToMessage (Record.mk "/c" [65] 100 [1, 2])).serialized_data).length + 1)
      = ([1, 2] : List Nat).length ∧
    deserialize mapA convPair (recordToMessage (Record.mk "/c" [65] 100 [1, 2]))
      = (convert_1_to_2 mapA convPair [65] [1, 2]).map
          (fun f =>
            { message := f
              time_stamp := (recordToMessage (Record.mk "/c" [65] 100 [1, 2])).time_stamp
              topic_name := (recordToMessage (Record.mk "/c" [65] 100 [1, 2])).topic_name }) :=
  C1_tagged_buffer_layout mapA convPair sGood (openView mapA bagGood)
    (Record.mk "/c" [65] 100 [1, 2])
    (recordToMessage (Record.mk "/c" [65] 100 [1, 2]))
    { sGood with cursor := 1 }
    rfl (by decide) (by decide) (by decide)

/-- C3: for a record on a mapped channel, `read_next()` followed by
`deserialize()` yields a generic message whose timestamp equals the
record's timestamp in nanoseconds exactly and whose topic name equals the
record's topic string exactly. -/
theorem C3_roundtrip_timestamp_topic {F : Type} (m : Ros1To2Mapping)
    (conv : List Nat → List Nat → F)
    (s : RosbagV2Storage) (v : List Record) (r : Record)
    (msg : SerializedBagMessage) (s' : RosbagV2Storage)
    (hv : s.view? = some v)
    (hread : s.read_next? = some (ReadResult.ok msg s'))
    (hr : v[s.cursor]? = some r)
    (hnul : ¬ 0 ∈ r.datatype)
    (hmapped : (m r.datatype).isSome) :
    ∃ im : IntrospectionMessage F,
      deserialize m conv msg = Except.ok im ∧
      im.time_stamp = r.time ∧ im.topic_name = r.topic := by
  have hlt : s.cursor < v.length := by
    by_contra hge
    rw [read_next_eq_undefined s v hv hge] at hread
    exact ReadResult.noConfusion (Option.some.inj hread)
  rw [read_next_eq_ok s v hv hlt] at hread
  have hinj := Option.some.inj hread
  injection hinj with hmsg hs
  have hvr : v.get ⟨s.cursor, hlt⟩ = r := by
    have := List.getElem?_eq_getElem hlt
    rw [hr] at this
    exact (Option.some.inj this).symm
  rw [hvr] at hmsg
  subst hmsg
  rcases Option.isSome_iff_exists.1 hmapped with ⟨host, hhost⟩
  refine ⟨{ message := conv r.datatype r.payload, time_stamp := r.time, topic_name := r.topic },
    ?_, rfl, rfl⟩
  unfold deserialize
  have h1 : parse_ros1_data_type (recordToMessage r).serialized_data = r.datatype :=
    parse_ros1_data_type_tagged r.datatype r.payload hnul
  have h2 : parse_payload_stream (recordToMessage r).serialized_data = r.payload :=
    parse_payload_stream_tagged r.datatype r.payload hnul
  simp only [h1, h2, convert_1_to_2, hhost]
  rfl

/-- C3 witness: the round trip at the first record of the opened `bagGood`
storage. -/
theorem C3_witness :
    ∃ im : IntrospectionMessage (List Nat × List Nat),
      deserialize mapA convPair (recordToMessage (Record.mk "/c" [65] 100 [1, 2]))
        = Except.ok im ∧
      im.time_stamp = 100 ∧ im.topic_name = "/c" :=
  C3_roundtrip_timestamp_topic mapA convPair sGood (openView mapA bagGood)
    (Record.mk "/c" [65] 100 [1, 2])
    (recordToMessage (Record.mk "/c" [65] 100 [1, 2]))
    { sGood with cursor := 1 }
    rfl (by decide) (by decide) (by decide) (by decide)

/-- C6: for every uri — including one naming a nonexistent file — opening
with write access fails with the unsupported-mode error before any file
access is attempted; the result is never the open error. -/
theorem C6_write_mode_rejected_first (m : Ros1To2Mapping)
    (resolve : String → Option Bag) (s : RosbagV2Storage) (uri : String) :
    RosbagV2Storage.openStorage m resolve s uri IOFlag.readWrite
      = Except.error StorageError.unsupportedModeError := by
  unfold RosbagV2Storage.openStorage
  simp

/-- C2 counterexample: `bagMixed` mixes mapped and unmapped channels; no
record lies on a mapped channel (both records carry unmapped types), yet
after `open` the adapter still has a next record — and reading yields the
record of the *unmapped* connection `(/t, [66])`, because the topic `/t`
was admitted through its other connection. This falsifies both halves of
the claim as stated. -/
theorem C2_counterexample :
    RosbagV2Storage.openStorage mapA (fun _ => some bagMixed)
        RosbagV2Storage.construct "mixed.bag" IOFlag.readOnly = Except.ok sMixed ∧
    (bagMixed.records.filter (fun r => (mapA r.datatype).isSome)).length = 0 ∧
    sMixed.has_next? = some true ∧
    (readMany 1 sMixed).1 = [recordToMessage (Record.mk "/t" [66] 100 [1, 2])] ∧
    mapA [66] = none := by
  decide

/-- C2 (amended): for every opened legacy log in which each topic carries a
single legacy type, reading to exhaustion yields exactly the records whose
type has a mapping, in view order, and `has_next()` becomes false after
exactly that many records, regardless of how many records exist on
unmapped channels. -/
theorem C2_amended_exhaustion (m : Ros1To2Mapping) (resolve : String → Option Bag)
    (s₀ : RosbagV2Storage) (uri : String) (s' : RosbagV2Storage) (bag : Bag)
    (hres : resolve uri = some bag) (hwf : bag.wellFormed = true)
    (hopen : RosbagV2Storage.openStorage m resolve s₀ uri IOFlag.readOnly = Except.ok s') :
    (readMany (bag.records.filter (fun r => (m r.datatype).isSome)).length s').1
      = (bag.records.filter (fun r => (m r.datatype).isSome)).map recordToMessage ∧
    (∀ msg ∈ (readMany (bag.records.filter
        (fun r => (m r.datatype).isSome)).length s').1,
       ∃ r, r ∈ bag.records ∧ (m r.datatype).isSome ∧ msg = recordToMessage r) ∧
    (readMany (bag.records.filter
        (fun r => (m r.datatype).isSome)).length s').2.has_next? = some false := by
  rcases openStorage_ok m resolve s₀ uri IOFlag.readOnly s' hopen with ⟨bag', hres', hs'⟩
  rw [hres] at hres'
  have hbag : bag = bag' := Option.some.inj hres'
  subst hbag
  subst hs'
  rw [openView_eq_mapped m bag hwf]
  have hmany := readMany_drop (bag.records.filter (fun r => (m r.datatype).isSome))
      (bag.records.filter (fun r => (m r.datatype).isSome)).length
      { bag? := some bag,
        view? := some (bag.records.filter (fun r => (m r.datatype).isSome)), cursor := 0 }
      rfl (by simp)
  simp only [List.drop_zero] at hmany
  refine ⟨by rw [hmany], ?_, ?_⟩
  · intro msg hmsg
    rw [hmany] at hmsg
    rcases List.mem_map.1 hmsg with ⟨r, hrmem, hrmsg⟩
    rcases List.mem_filter.1 hrmem with ⟨hrrec, hrmap⟩
    exact ⟨r, hrrec, hrmap, hrmsg.symm⟩
  · rw [hmany]
    rw [has_next_eq _ (bag.records.filter (fun r => (m r.datatype).isSome)) rfl]
    simp

/-- C2 witness: instantiating the amended exhaustion property on the
well-formed `bagGood` with its two mapped-channel records. -/
theorem C2_witness :
    bagGood.wellFormed = true ∧
    (readMany (bagGood.records.filter (fun r => (mapA r.datatype).isSome)).length sGood).1
      = (bagGood.records.filter (fun r => (mapA r.datatype).isSome)).map recordToMessage ∧
    (readMany (bagGood.records.filter
        (fun r => (mapA r.datatype).isSome)).length sGood).2.has_next? = some false :=
  ⟨by decide,
   (C2_amended_exhaustion mapA (fun _ => some bagGood) RosbagV2Storage.construct
      "good.bag" sGood bagGood rfl (by decide) rfl).1,
   (C2_amended_exhaustion mapA (fun _ => some bagGood) RosbagV2Storage.construct
      "good.bag" sGood bagGood rfl (by decide) rfl).2.2⟩

/-- C4 counterexample: with both legacy types of topic `/t` mapped,
`get_all_topics_and_types()` returns two entries for the same topic — the
result is deduplicated by full (topic, type, format) channel identity, not
by topic. -/
theorem C4_counterexample :
    (get_all_topics_and_types mapAB bagTwoTypes).map TopicMetadata.name = ["/t", "/t"] ∧
    ¬ ((get_all_topics_and_types mapAB bagTwoTypes).map TopicMetadata.name).Nodup := by
  decide

/-- C4 (amended): `get_all_topics_and_types()` returns exactly the
connections deduplicated by full channel identity (topic, legacy type,
serialization format) — not by topic — keeping those whose legacy type has
a mapping, with the type field replaced by the host type name and every
entry tagged `"rosbag_v2"`. -/
theorem C4_amended_channel_dedup (m : Ros1To2Mapping) (bag : Bag) :
    get_all_topics_and_types m bag
      = (dedupKeepFirst (bag.connections.map connectionMetadata)).filterMap
          (fun tm => (m tm.type).map (fun h => { tm with type := h })) ∧
    ∀ tm ∈ get_all_topics_and_types m bag,
      tm.serialization_format = "rosbag_v2" ∧
      ∃ c, c ∈ bag.connections ∧ tm.name = c.topic ∧ m c.datatype = some tm.type := by
  refine ⟨get_all_eq_filterMap m bag, ?_⟩
  intro tm htm
  rw [get_all_eq_filterMap m bag] at htm
  rcases List.mem_filterMap.1 htm with ⟨tm', htm', hmap⟩
  rcases Option.map_eq_some'.1 hmap with ⟨h, hx, hf⟩
  have htm'mem : tm' ∈ bag.connections.map connectionMetadata :=
    (mem_dedupKeepFirst _ _).1 htm'
  rcases List.mem_map.1 htm'mem with ⟨c, hc, hcm⟩
  subst hf
  subst hcm
  refine ⟨rfl, c, hc, rfl, ?_⟩
  simpa [connectionMetadata] using hx

/-- C5 counterexample: on `bagMixed` (topic `/t` carries the mapped type
`[65]` and the unmapped type `[66]`), `read_next()` returns a record whose
embedded legacy type `[66]` has no entry in the mapping table, and
`deserialize()` reaches the unmapped-type failure on this adapter-produced
record. -/
theorem C5_counterexample :
    sMixed.read_next?
      = some (ReadResult.ok (recordToMessage (Record.mk "/t" [66] 100 [1, 2]))
          { sMixed with cursor := 1 }) ∧
    mapA (parse_ros1_data_type
      (recordToMessage (Record.mk "/t" [66] 100 [1, 2])).serialized_data) = none ∧
    deserialize mapA convPair (recordToMessage (Record.mk "/t" [66] 100 [1, 2]))
      = Except.error StorageError.unmappedTypeError := by
  decide

/-- C5 (amended): for every opened legacy log in which each topic carries a
single legacy type (and type names are NUL-free), the legacy type name
embedded in every record `read_next()` returns has an entry in the mapping
table, so `deserialize()` never reaches the unmapped-type failure. The
claim's "including when a topic carries connections of more than one
legacy type" is false: the topic-level filter lets records of an unmapped
type through when the same topic also has a mapped connection. -/
theorem C5_amended_embedded_type_mapped {F : Type} (m : Ros1To2Mapping)
    (conv : List Nat → List Nat → F) (bag : Bag)
    (hwf : bag.wellFormed = true)
    (hnul : bag.records.all (fun r => decide (¬ 0 ∈ r.datatype)) = true)
    (s : RosbagV2Storage) (hv : s.view? = some (openView m bag))
    (msg : SerializedBagMessage) (s' : RosbagV2Storage)
    (hread : s.read_next? = some (ReadResult.ok msg s')) :
    (m (parse_ros1_data_type msg.serialized_data)).isSome ∧
    ∃ im : IntrospectionMessage F, deserialize m conv msg = Except.ok im := by
  have hlt : s.cursor < (openView m bag).length := by
    by_contra hge
    rw [read_next_eq_undefined s _ hv hge] at hread
    exact ReadResult.noConfusion (Option.some.inj hread)
  rw [read_next_eq_ok s _ hv hlt] at hread
  injection Option.some.inj hread with hmsg hs
  have hrmem : (openView m bag).get ⟨s.cursor, hlt⟩ ∈ openView m bag :=
    List.get_mem _ _ _
  subst hmsg
  generalize hrdef : (openView m bag).get ⟨s.cursor, hlt⟩ = r at hrmem
  have hrmem' := hrmem
  rw [openView_eq_mapped m bag hwf] at hrmem'
  rcases List.mem_filter.1 hrmem' with ⟨hrrec, hrmap⟩
  have hrnul : ¬ 0 ∈ r.datatype := of_decide_eq_true (List.all_eq_true.1 hnul r hrrec)
  have h1 : parse_ros1_data_type (recordToMessage r).serialized_data = r.datatype :=
    parse_ros1_data_type_tagged r.datatype r.payload hrnul
  have h2 : parse_payload_stream (recordToMessage r).serialized_data = r.payload :=
    parse_payload_stream_tagged r.datatype r.payload hrnul
  constructor
  · rw [h1]
    exact hrmap
  · rcases Option.isSome_iff_exists.1 hrmap with ⟨host, hhost⟩
    refine ⟨IntrospectionMessage.mk (conv r.datatype r.payload) r.time r.topic, ?_⟩
    simp only [deserialize, h1, h2, convert_1_to_2, hhost]
    rfl

/-- C5 witness: the amended invariant at the first record of the opened
`bagGood` storage. -/
theorem C5_witness :
    (mapA (parse_ros1_data_type
      (recordToMessage (Record.mk "/c" [65] 100 [1, 2])).serialized_data)).isSome ∧
    ∃ im : IntrospectionMessage (List Nat × List Nat),
      deserialize mapA convPair (recordToMessage (Record.mk "/c" [65] 100 [1, 2]))
        = Except.ok im :=
  C5_amended_embedded_type_mapped mapA convPair bagGood (by decide) (by decide)
    sGood rfl (recordToMessage (Record.mk "/c" [65] 100 [1, 2]))
    { sGood with cursor := 1 } (by decide)

/-- C7 counterexample: on the exhausted storage, `has_next()` is false, yet
`read_next()` does not fail with the end-of-log error — the code has no end
check, and the call dereferences the end iterator (no defined result). -/
theorem C7_counterexample :
    sExhausted.has_next? = some false ∧
    sExhausted.read_next? = some ReadResult.undefinedEndDereference ∧
    sExhausted.read_next? ≠ some ReadResult.endOfLogError := by
  decide

/-- C7 (amended): calling `read_next()` when `has_next()` is false does not
fail with `EndOfLogError`: `read_next()` performs no end check and
dereferences the end iterator, which has no defined result (and hence no
guarantee about observable state). -/
theorem C7_amended_no_end_check (s : RosbagV2Storage) (v : List Record)
    (hv : s.view? = some v) (hend : s.has_next? = some false) :
    s.read_next? = some ReadResult.undefinedEndDereference ∧
    s.read_next? ≠ some ReadResult.endOfLogError := by
  have hne := has_next_eq s v hv
  rw [hend] at hne
  have hcur : s.cursor = v.length := by
    by_contra h
    simp [h] at hne
  have hnlt : ¬ s.cursor < v.length := by omega
  rw [read_next_eq_undefined s v hv hnlt]
  exact ⟨rfl, by simp⟩

/-- C7 witness: the amended behaviour at the exhausted `bagGood` storage. -/
theorem C7_witness :
    sExhausted.read_next? = some ReadResult.undefinedEndDereference ∧
    sExhausted.read_next? ≠ some ReadResult.endOfLogError :=
  C7_amended_no_end_check sExhausted (openView mapA bagGood) rfl (by decide)

/-- C8 counterexample: topic `/t` first appears with the unmapped type
`[66]`; were inclusion decided by the first-seen occurrence alone, `/t`
would be excluded — but the later mapped occurrence `[65]` admits it. -/
theorem C8_counterexample :
    conns8.head? = some (Connection.mk "/t" [66]) ∧
    mapA [66] = none ∧
    topics_valid_in_ros2 mapA conns8 = ["/t"] := by
  decide

/-- C8 (amended): during `open()`'s channel enumeration a topic is included
in the replayable set iff *at least one* of its occurrences carries a
mapped type — any mapped occurrence admits it, not the first-seen one
alone — and the resulting topic list holds each topic at most once (a
topic present multiple times with the same type collapses to one entry). -/
theorem C8_amended_any_mapped_occurrence (m : Ros1To2Mapping) (conns : List Connection) :
    (∀ t, t ∈ topics_valid_in_ros2 m conns ↔
       ∃ c, c ∈ conns ∧ c.topic = t ∧ (m c.datatype).isSome) ∧
    (topics_valid_in_ros2 m conns).Nodup :=
  ⟨fun t => mem_topics_valid m conns t, nodup_topics_valid m conns⟩

/-- C9: two successive `get_metadata()` calls on the same opened,
unmodified log return identical snapshots — size, duration, starting time,
total message count and per-topic counts included — and leave the storage
state unchanged. -/
theorem C9_metadata_idempotent (m : Ros1To2Mapping) (s : RosbagV2Storage) (bag : Bag)
    (h : s.bag? = some bag) :
    ((s.get_metadata_call m).2.get_metadata_call m).1 = (s.get_metadata_call m).1 ∧
    (s.get_metadata_call m).2 = s ∧
    (s.get_metadata_call m).1 = some (get_metadata m bag) := by
  unfold RosbagV2Storage.get_metadata_call
  simp [h]

/-- C9 witness: metadata idempotence on the opened `bagGood` storage. -/
theorem C9_witness :
    ((sGood.get_metadata_call mapA).2.get_metadata_call mapA).1
      = (sGood.get_metadata_call mapA).1 ∧
    (sGood.get_metadata_call mapA).2 = sGood ∧
    (sGood.get_metadata_call mapA).1 = some (get_metadata mapA bagGood) :=
  C9_metadata_idempotent mapA sGood bagGood rfl

theorem read_next_isSome (s : RosbagV2Storage) (v : List Record)
    (h : s.view? = some v) : s.read_next?.isSome := by
  unfold RosbagV2Storage.read_next?
  rw [h]
  by_cases hlt : s.cursor < v.length
  · simp [hlt]
  · simp [hlt]

/-- C10: `has_next()` and `read_next()` presuppose a successful `open()`:
at construction the filtered-view pointer is null (both operations would
dereference it with no defined result), and after any successful `open()`
the pointer is non-null, so the null-dereference branch of both operations
is unreachable. -/
theorem C10_null_view_before_open :
    (RosbagV2Storage.construct.view? = none ∧
     RosbagV2Storage.construct.has_next? = none ∧
     RosbagV2Storage.construct.read_next? = none) ∧
    ∀ (m : Ros1To2Mapping) (resolve : String → Option Bag) (s₀ : RosbagV2Storage)
      (uri : String) (flag : IOFlag) (s' : RosbagV2Storage),
      RosbagV2Storage.openStorage m resolve s₀ uri flag = Except.ok s' →
      s'.view?.isSome ∧ s'.has_next?.isSome ∧ s'.read_next?.isSome := by
  refine ⟨⟨rfl, rfl, rfl⟩, ?_⟩
  intro m resolve s₀ uri flag s' hopen
  rcases openStorage_ok m resolve s₀ uri flag s' hopen with ⟨bag, hres, hs'⟩
  subst hs'
  refine ⟨rfl, ?_, ?_⟩
  · rw [has_next_eq _ (openView m bag) rfl]
    rfl
  · exact read_next_isSome _ (openView m bag) rfl

/-- C10 witness: the null view at construction and the non-null branches
after the concrete `open` of `bagGood`. -/
theorem C10_witness :
    RosbagV2Storage.construct.view? = none ∧
    (sGood.view?.isSome ∧ sGood.has_next?.isSome ∧ sGood.read_next?.isSome) :=
  ⟨C10_null_view_before_open.1.1,
   C10_null_view_before_open.2 mapA (fun _ => some bagGood) RosbagV2Storage.construct
     "good.bag" IOFlag.readOnly sGood rfl⟩
